import Mathlib

/-!
Verification of the flag-parsing core of the repository (src/cli/flags.rs).

The file embeds, in order:
* `DenoFlags` and `DenoFlags.ofMatches` (the Rust `impl From<ArgMatches> for DenoFlags`,
  src/cli/flags.rs lines 11-92);
* the flag catalog declared by `create_cli_app` (lines 98-200): the boolean long flags,
  the four short flags, the value-taking `v8-flags` flag with `require_equals(true)`,
  and the three subcommands with their positional arities;
* the argument-classification loop.  The parsing engine itself is the external `clap`
  crate, which is not part of this repository; the loop is therefore modelled from the
  specification (section 4.2) while matching tokens exactly against the catalog of
  `create_cli_app`;
* `set_flags` (lines 202-262).  Its two side effects are made explicit data:
  a parse failure inside clap v2's `get_matches_from` prints the error together with
  the usage text and terminates the process, which is the `ProcOutcome.exit` outcome,
  and every call to the external collaborator `v8_set_flags` is recorded in the
  `v8_calls` component of the `ProcOutcome.ok` outcome.
-/

/-- The typed flag structure produced by parsing, src/cli/flags.rs lines 12-29.
All fields default to `false` (the Rust `#[derive(Default)]`). -/
@[ext]
structure DenoFlags where
  log_debug : Bool := false
  version : Bool := false
  reload : Bool := false
  allow_read : Bool := false
  allow_write : Bool := false
  allow_net : Bool := false
  allow_env : Bool := false
  allow_run : Bool := false
  allow_high_precision : Bool := false
  no_prompts : Bool := false
  types : Bool := false
  prefetch : Bool := false
  info : Bool := false
  fmt : Bool := false
  eval : Bool := false
deriving DecidableEq

/-- `DenoFlags::default()`: every switch off. -/
def DenoFlags.default : DenoFlags := {}

/-- Which of the five mutually exclusive invocation modes the parse selected:
one of the three built-in subcommands, the default script-run mode (with the
script path and the verbatim trailing tokens), or no selection at all. -/
inductive Selection where
  | noSub : Selection
  | info (file : String) : Selection
  | eval (code : String) : Selection
  | fmt (files : List String) : Selection
  | script (path : String) (args : List String) : Selection
deriving DecidableEq

def Selection.isInfo : Selection → Bool
  | .info _ => true
  | _ => false

def Selection.isEval : Selection → Bool
  | .eval _ => true
  | _ => false

def Selection.isFmt : Selection → Bool
  | .fmt _ => true
  | _ => false

/-- The generic parse result (clap's `ArgMatches`, restricted to what the program
reads from it): the recorded global flag names in order of appearance, the
comma-split value of `v8-flags` when present, and the selected mode. -/
structure ParseResult where
  names : List String
  v8 : Option (List String)
  sel : Selection
deriving DecidableEq

/-- `matches.is_present(name)`: the three subcommand names are present exactly when
the corresponding subcommand was selected, `v8-flags` is present exactly when its
value was captured, and every other name is looked up among the recorded flag names. -/
def ParseResult.isPresent (m : ParseResult) (name : String) : Bool :=
  if name = "info" then m.sel.isInfo
  else if name = "eval" then m.sel.isEval
  else if name = "fmt" then m.sel.isFmt
  else if name = "v8-flags" then m.v8.isSome
  else m.names.contains name

set_option maxHeartbeats 1000000 in
/-- The Rust `impl From<ArgMatches> for DenoFlags` (src/cli/flags.rs lines 31-92):
start from the default structure and apply one conditional assignment per flag, in
source order, including the `allow-all` block that assigns `allow_read` twice. -/
def DenoFlags.ofMatches (m : ParseResult) : DenoFlags :=
  let flags : DenoFlags := DenoFlags.default
  let flags : DenoFlags := if m.isPresent "log-debug" then { flags with log_debug := true } else flags
  let flags : DenoFlags := if m.isPresent "version" then { flags with version := true } else flags
  let flags : DenoFlags := if m.isPresent "reload" then { flags with reload := true } else flags
  let flags : DenoFlags := if m.isPresent "allow-read" then { flags with allow_read := true } else flags
  let flags : DenoFlags := if m.isPresent "allow-write" then { flags with allow_write := true } else flags
  let flags : DenoFlags := if m.isPresent "allow-net" then { flags with allow_net := true } else flags
  let flags : DenoFlags := if m.isPresent "allow-env" then { flags with allow_env := true } else flags
  let flags : DenoFlags := if m.isPresent "allow-run" then { flags with allow_run := true } else flags
  let flags : DenoFlags := if m.isPresent "allow-high-precision" then { flags with allow_high_precision := true } else flags
  let flags : DenoFlags := if m.isPresent "allow-all" then
      let flags : DenoFlags := { flags with allow_read := true }
      let flags : DenoFlags := { flags with allow_env := true }
      let flags : DenoFlags := { flags with allow_net := true }
      let flags : DenoFlags := { flags with allow_run := true }
      let flags : DenoFlags := { flags with allow_read := true }
      let flags : DenoFlags := { flags with allow_write := true }
      { flags with allow_high_precision := true }
    else flags
  let flags : DenoFlags := if m.isPresent "no-prompt" then { flags with no_prompts := true } else flags
  let flags : DenoFlags := if m.isPresent "types" then { flags with types := true } else flags
  let flags : DenoFlags := if m.isPresent "prefetch" then { flags with prefetch := true } else flags
  let flags : DenoFlags := if m.isPresent "info" then { flags with info := true } else flags
  let flags : DenoFlags := if m.isPresent "fmt" then { flags with fmt := true } else flags
  let flags : DenoFlags := if m.isPresent "eval" then { flags with eval := true } else flags
  flags

/-- The long spellings of the declared boolean (presence-only) global flags,
exactly as declared in `create_cli_app` (src/cli/flags.rs lines 106-171).
`v8-flags` is the only value-taking flag and is handled separately. -/
def boolLongFlags : List String :=
  ["version", "allow-read", "allow-write", "allow-net", "allow-env", "allow-run",
   "allow-high-precision", "allow-all", "no-prompt", "log-debug", "reload",
   "v8-options", "types", "prefetch"]

/-- The declared short spellings (src/cli/flags.rs lines 108, 137, 146, 151):
`-v` for version, `-A` for allow-all, `-D` for log-debug, `-r` for reload. -/
def shortFlagName (c : Char) : Option String :=
  if c = 'v' then some "version"
  else if c = 'A' then some "allow-all"
  else if c = 'D' then some "log-debug"
  else if c = 'r' then some "reload"
  else none

/-- Comma-splitting of a flag value, the delimiter semantics clap applies when the
program reads `values_of("v8-flags")` (the spec: split the value as a
comma-separated list into a token list).  Structural helper on characters. -/
def splitCommaAux : List Char → List Char → List String
  | [], acc => [String.mk acc.reverse]
  | c :: cs, acc =>
    if c = ',' then String.mk acc.reverse :: splitCommaAux cs []
    else splitCommaAux cs (c :: acc)

def splitOnComma (s : String) : List String := splitCommaAux s.data []

/-- How a single raw token is matched against the catalog of `create_cli_app`:
a declared boolean long flag, a combination of declared short flags, the
value-taking `v8-flags` flag with its required `=`-attached value, a bare
`v8-flags` token lacking that value, a declared subcommand name, an
unrecognized flag-looking token, or (anything else) a script-path token. -/
inductive SubKind where
  | info : SubKind
  | eval : SubKind
  | fmt : SubKind
deriving DecidableEq

inductive TokenClass where
  | boolLong (name : String) : TokenClass
  | shortCombo (names : List String) : TokenClass
  | v8flagsEq (value : String) : TokenClass
  | v8flagsBare : TokenClass
  | subcommand (k : SubKind) : TokenClass
  | badFlag (tok : String) : TokenClass
  | scriptTok : TokenClass
deriving DecidableEq

/-- Classify one token against the declared catalog.  A token `--v8-flags=V`
carries the value `V` (the flag is declared `require_equals(true)`, src/cli/flags.rs
line 162, so the value must be attached with an equals sign); a bare `--v8-flags`
is the missing-value failure.  A single-dash token is a combination of declared
short flags, and is unrecognized when any character is not a declared short.
A token that is not flag-shaped is a subcommand name or a script path. -/
def classify (t : String) : TokenClass :=
  match t.data with
  | '-' :: '-' :: body =>
    if List.isPrefixOf ("v8-flags=".data) body then .v8flagsEq (String.mk (body.drop 9))
    else if String.mk body = "v8-flags" then .v8flagsBare
    else if boolLongFlags.contains (String.mk body) then .boolLong (String.mk body)
    else .badFlag t
  | '-' :: c :: cs =>
    match List.mapM shortFlagName (c :: cs) with
    | some ns => .shortCombo ns
    | none => .badFlag t
  | _ =>
    if t = "info" then .subcommand .info
    else if t = "eval" then .subcommand .eval
    else if t = "fmt" then .subcommand .fmt
    else .scriptTok

/-- The parse-failure taxonomy of the specification (section 7): a value-taking
flag lacking its value or a missing required subcommand positional is
`malformedArguments`; a flag-shaped token matching nothing declared, or an
unexpected extra token after a subcommand's positionals, is `unrecognizedToken`. -/
inductive ParseError where
  | malformedArguments (detail : String) : ParseError
  | unrecognizedToken (detail : String) : ParseError
deriving DecidableEq

def unexpectedMsg (t : String) : String :=
  "Found argument " ++ t ++ " which was not expected"

def v8MissingValueMsg : String :=
  "The argument --v8-flags requires a value but none was supplied"

def infoMissingMsg : String :=
  "The required argument file was not provided to the info subcommand"

def evalMissingMsg : String :=
  "The required argument code was not provided to the eval subcommand"

def fmtMissingMsg : String :=
  "The required argument files was not provided to the fmt subcommand"

/-- A token that looks like a flag: it starts with a dash and has at least one
further character.  A bare dash is a plausible positional value. -/
def flagLike (t : String) : Bool :=
  match t.data with
  | '-' :: _ :: _ => true
  | _ => false

/-- Consume the single required positional of `info` or `eval`
(src/cli/flags.rs lines 172-181: one `required(true)` argument, not multiple):
zero following tokens is the missing-positional failure, a flag-looking token or
a second positional is unexpected. -/
def parseOneArg (missing : String) (mk : String → Selection) (ts : List String) :
    Except ParseError Selection :=
  match ts with
  | [] => .error (.malformedArguments missing)
  | [x] =>
    if flagLike x then .error (.unrecognizedToken (unexpectedMsg x))
    else .ok (mk x)
  | x :: y :: _ =>
    if flagLike x then .error (.unrecognizedToken (unexpectedMsg x))
    else .error (.unrecognizedToken (unexpectedMsg y))

/-- Consume the one-or-more required positionals of `fmt`
(src/cli/flags.rs lines 182-191: `multiple(true).required(true)`): zero following
tokens is the missing-positional failure, and every following token is captured
as a file, none being flag-looking. -/
def parseFmtArgs (ts : List String) : Except ParseError Selection :=
  match ts with
  | [] => .error (.malformedArguments fmtMissingMsg)
  | _ =>
    if ts.all (fun t => !flagLike t) then .ok (.fmt ts)
    else .error (.unrecognizedToken "Found an unexpected flag among the fmt files")

/-- Modelled from the spec: the token-by-token classification loop of the
argument parser (specification section 4.2; the engine executing it is the
external clap crate, outside this repository).  Scan the tokens, recording the
presence of boolean flags and the comma-split value of `v8-flags`; the first
token that selects a subcommand or a script stops the scan, the subcommand
consuming exactly its declared positional arity and the script capturing every
further token verbatim, never matched against the flag catalog. -/
def parseLoop : List String → List String → Option (List String) → Except ParseError ParseResult
  | [], names, v8 => .ok ⟨names, v8, .noSub⟩
  | t :: ts, names, v8 =>
    match classify t with
    | .boolLong n => parseLoop ts (names ++ [n]) v8
    | .shortCombo ns => parseLoop ts (names ++ ns) v8
    | .v8flagsEq v => parseLoop ts names (some (splitOnComma v))
    | .v8flagsBare => .error (.malformedArguments v8MissingValueMsg)
    | .badFlag tok => .error (.unrecognizedToken (unexpectedMsg tok))
    | .subcommand .info => (parseOneArg infoMissingMsg Selection.info ts).map (fun s => ⟨names, v8, s⟩)
    | .subcommand .eval => (parseOneArg evalMissingMsg Selection.eval ts).map (fun s => ⟨names, v8, s⟩)
    | .subcommand .fmt => (parseFmtArgs ts).map (fun s => ⟨names, v8, s⟩)
    | .scriptTok => .ok ⟨names, v8, .script t ts⟩

deriving instance DecidableEq for Except

/-- Parse an argument sequence (excluding the program name) against the catalog. -/
def parseArgs (ts : List String) : Except ParseError ParseResult := parseLoop ts [] none

/-- The usage text clap prints with every parse failure. -/
def usageMsg : String := "USAGE:\n    deno [FLAGS] [OPTIONS] [SUBCOMMAND]"

/-- The human-readable message printed for a parse failure: the descriptive error
followed by the usage text. -/
def renderErr (e : ParseError) : String :=
  (match e with
   | .malformedArguments d => "error: " ++ d
   | .unrecognizedToken d => "error: " ++ d) ++ "\n\n" ++ usageMsg

/-- `Vec::insert(1, x)`: place `x` at index 1 of the vector, as
src/cli/flags.rs line 256 does to the split `v8-flags` values.  Rust panics when
the vector is empty; that case is unreachable here because comma-splitting
always yields at least one piece. -/
def insertAt1 (x : String) : List String → List String
  | [] => []
  | a :: rest => a :: x :: rest

/-- The observable outcome of running `set_flags`: either the returned pair
(typed flags, residual argv) together with the list of argument vectors
forwarded to the external collaborator `v8_set_flags`, or termination of the
process by the parsing library with the printed message (clap v2's
`get_matches_from`, called at src/cli/flags.rs line 208, prints the error with
the usage text and exits the process on a failed parse, so `set_flags` never
returns in that case — in particular it never returns an `Err` value; its only
`return` is the final `Ok`). -/
inductive ProcOutcome where
  | ok (flags : DenoFlags) (rest_argv : List String) (v8_calls : List (List String)) : ProcOutcome
  | exit (message : String) : ProcOutcome
deriving DecidableEq

/-- `set_flags` (src/cli/flags.rs lines 202-262): parse the arguments after the
program name, build the residual argv from the selected mode (program-name
placeholder first, then the captured code, file, files, or the script path with
its verbatim trailing tokens), forward `--v8-options` and the comma-split
`v8-flags` value (with the placeholder inserted at index 1, line 256) to
`v8_set_flags`, and return the typed flags with the residual argv. -/
def set_flags (args : List String) : ProcOutcome :=
  match parseArgs (args.drop 1) with
  | .error e => .exit (renderErr e)
  | .ok m =>
    let rest_argv : List String := ["deno"]
    let rest_argv := rest_argv ++
      (match m.sel with
       | .eval code => [code]
       | .info file => [file]
       | .fmt files => files
       | .script s ts => s :: ts
       | .noSub => [])
    let calls : List (List String) :=
      (if m.isPresent "v8-options" then [["deno", "--v8-options"]] else []) ++
      (match m.v8 with
       | some v8_flags => [insertAt1 "deno" v8_flags]
       | none => [])
    .ok (DenoFlags.ofMatches m) rest_argv calls

/-- The number of fields of a `DenoFlags` value that are set. -/
def countTrueFields (f : DenoFlags) : Nat :=
  (if f.log_debug then 1 else 0) + (if f.version then 1 else 0) + (if f.reload then 1 else 0) +
  (if f.allow_read then 1 else 0) + (if f.allow_write then 1 else 0) +
  (if f.allow_net then 1 else 0) + (if f.allow_env then 1 else 0) +
  (if f.allow_run then 1 else 0) + (if f.allow_high_precision then 1 else 0) +
  (if f.no_prompts then 1 else 0) + (if f.types then 1 else 0) + (if f.prefetch then 1 else 0) +
  (if f.info then 1 else 0) + (if f.fmt then 1 else 0) + (if f.eval then 1 else 0)

/-- The flags component of an outcome, when the call returned. -/
def outFlags : ProcOutcome → Option DenoFlags
  | .ok f _ _ => some f
  | .exit _ => none

/-- The returned pair (flags, residual argv) of an outcome, when the call returned. -/
def outFR : ProcOutcome → Option (DenoFlags × List String)
  | .ok f r _ => some (f, r)
  | .exit _ => none

/-- A token consumed entirely inside the flag region of the scan: a declared
boolean long flag, a short-flag combination, or an attached `v8-flags` value. -/
def isPureTok (t : String) : Bool :=
  match classify t with
  | .boolLong _ => true
  | .shortCombo _ => true
  | .v8flagsEq _ => true
  | _ => false

/-- The flag names one token records. -/
def tokNames (t : String) : List String :=
  match classify t with
  | .boolLong n => [n]
  | .shortCombo ns => ns
  | _ => []

/-- The flag names a token sequence records, in order. -/
def namesOf (fs : List String) : List String := fs.flatMap tokNames

/-- How one token updates the captured `v8-flags` value. -/
def vAccTok (t : String) (v : Option (List String)) : Option (List String) :=
  match classify t with
  | .v8flagsEq s => some (splitOnComma s)
  | _ => v

/-- The captured `v8-flags` value after a token sequence. -/
def vAcc (fs : List String) (v : Option (List String)) : Option (List String) :=
  fs.foldl (fun acc t => vAccTok t acc) v

/-- The long-form token of a flag name. -/
def longTokOf (n : String) : String := String.mk ('-' :: '-' :: n.data)

/-- Whether a token survives erasing the two engine-tuning flags
(`--v8-options` and an attached `--v8-flags=` value). -/
def keepTok (t : String) : Bool :=
  match classify t with
  | .v8flagsEq _ => false
  | .boolLong n => !(n == "v8-options")
  | _ => true

/-- Erase the two engine-tuning flags from a token sequence. -/
def eraseV8 (fs : List String) : List String := fs.filter keepTok

/-- Two recorded-name lists that agree on every membership fact read by
`DenoFlags.ofMatches`: each non-permission flag name, and for each permission
field the disjunction of its own name and `allow-all`. -/
structure FlagsEqv (ns₁ ns₂ : List String) : Prop where
  version : ns₁.contains "version" = ns₂.contains "version"
  log_debug : ns₁.contains "log-debug" = ns₂.contains "log-debug"
  reload : ns₁.contains "reload" = ns₂.contains "reload"
  no_prompt : ns₁.contains "no-prompt" = ns₂.contains "no-prompt"
  types : ns₁.contains "types" = ns₂.contains "types"
  prefetch : ns₁.contains "prefetch" = ns₂.contains "prefetch"
  allow_read : (ns₁.contains "allow-read" || ns₁.contains "allow-all") =
    (ns₂.contains "allow-read" || ns₂.contains "allow-all")
  allow_write : (ns₁.contains "allow-write" || ns₁.contains "allow-all") =
    (ns₂.contains "allow-write" || ns₂.contains "allow-all")
  allow_net : (ns₁.contains "allow-net" || ns₁.contains "allow-all") =
    (ns₂.contains "allow-net" || ns₂.contains "allow-all")
  allow_env : (ns₁.contains "allow-env" || ns₁.contains "allow-all") =
    (ns₂.contains "allow-env" || ns₂.contains "allow-all")
  allow_run : (ns₁.contains "allow-run" || ns₁.contains "allow-all") =
    (ns₂.contains "allow-run" || ns₂.contains "allow-all")
  allow_hp : (ns₁.contains "allow-high-precision" || ns₁.contains "allow-all") =
    (ns₂.contains "allow-high-precision" || ns₂.contains "allow-all")

/-! Sanity checks replaying the test fixtures of src/cli/flags.rs
(test_set_flags_1 through test_set_flags_9). -/

example : set_flags ["deno", "--version"] =
    .ok { version := true } ["deno"] [] := by decide

example : set_flags ["deno", "-r", "-D", "script.ts"] =
    .ok { log_debug := true, reload := true } ["deno", "script.ts"] [] := by decide

example : set_flags ["deno", "-r", "--allow-write", "script.ts"] =
    .ok { reload := true, allow_write := true } ["deno", "script.ts"] [] := by decide

example : set_flags ["deno", "-Dr", "--allow-write", "script.ts"] =
    .ok { log_debug := true, reload := true, allow_write := true } ["deno", "script.ts"] [] := by
  decide

example : set_flags ["deno", "--types"] =
    .ok { types := true } ["deno"] [] := by decide

example : set_flags ["deno", "--allow-net", "gist.ts", "--title", "X"] =
    .ok { allow_net := true } ["deno", "gist.ts", "--title", "X"] [] := by decide

example : set_flags ["deno", "--allow-all", "gist.ts"] =
    .ok { allow_read := true, allow_write := true, allow_net := true, allow_env := true,
          allow_run := true, allow_high_precision := true } ["deno", "gist.ts"] [] := by decide

example : set_flags ["deno", "--allow-read", "gist.ts"] =
    .ok { allow_read := true } ["deno", "gist.ts"] [] := by decide

example : set_flags ["deno", "--allow-high-precision", "script.ts"] =
    .ok { allow_high_precision := true } ["deno", "script.ts"] [] := by decide

/-! Characterization of `DenoFlags.ofMatches`, field by field: each permission
field is the disjunction of its own flag and `allow-all`, each other field reads
exactly its own flag, and the three mode fields read the selected subcommand. -/

lemma ofMatches_log_debug (m : ParseResult) :
    (DenoFlags.ofMatches m).log_debug = m.names.contains "log-debug" := by
  simp [DenoFlags.ofMatches, ParseResult.isPresent, DenoFlags.default,
    apply_ite DenoFlags.log_debug, Bool.or_comm]

lemma ofMatches_version (m : ParseResult) :
    (DenoFlags.ofMatches m).version = m.names.contains "version" := by
  simp [DenoFlags.ofMatches, ParseResult.isPresent, DenoFlags.default,
    apply_ite DenoFlags.version, Bool.or_comm]

lemma ofMatches_reload (m : ParseResult) :
    (DenoFlags.ofMatches m).reload = m.names.contains "reload" := by
  simp [DenoFlags.ofMatches, ParseResult.isPresent, DenoFlags.default,
    apply_ite DenoFlags.reload, Bool.or_comm]

lemma ofMatches_no_prompts (m : ParseResult) :
    (DenoFlags.ofMatches m).no_prompts = m.names.contains "no-prompt" := by
  simp [DenoFlags.ofMatches, ParseResult.isPresent, DenoFlags.default,
    apply_ite DenoFlags.no_prompts, Bool.or_comm]

lemma ofMatches_types (m : ParseResult) :
    (DenoFlags.ofMatches m).types = m.names.contains "types" := by
  simp [DenoFlags.ofMatches, ParseResult.isPresent, DenoFlags.default,
    apply_ite DenoFlags.types, Bool.or_comm]

lemma ofMatches_prefetch (m : ParseResult) :
    (DenoFlags.ofMatches m).prefetch = m.names.contains "prefetch" := by
  simp [DenoFlags.ofMatches, ParseResult.isPresent, DenoFlags.default,
    apply_ite DenoFlags.prefetch, Bool.or_comm]

lemma ofMatches_allow_read (m : ParseResult) :
    (DenoFlags.ofMatches m).allow_read =
      (m.names.contains "allow-read" || m.names.contains "allow-all") := by
  simp [DenoFlags.ofMatches, ParseResult.isPresent, DenoFlags.default,
    apply_ite DenoFlags.allow_read, Bool.or_comm]

lemma ofMatches_allow_write (m : ParseResult) :
    (DenoFlags.ofMatches m).allow_write =
      (m.names.contains "allow-write" || m.names.contains "allow-all") := by
  simp [DenoFlags.ofMatches, ParseResult.isPresent, DenoFlags.default,
    apply_ite DenoFlags.allow_write, Bool.or_comm]

lemma ofMatches_allow_net (m : ParseResult) :
    (DenoFlags.ofMatches m).allow_net =
      (m.names.contains "allow-net" || m.names.contains "allow-all") := by
  simp [DenoFlags.ofMatches, ParseResult.isPresent, DenoFlags.default,
    apply_ite DenoFlags.allow_net, Bool.or_comm]

lemma ofMatches_allow_env (m : ParseResult) :
    (DenoFlags.ofMatches m).allow_env =
      (m.names.contains "allow-env" || m.names.contains "allow-all") := by
  simp [DenoFlags.ofMatches, ParseResult.isPresent, DenoFlags.default,
    apply_ite DenoFlags.allow_env, Bool.or_comm]

lemma ofMatches_allow_run (m : ParseResult) :
    (DenoFlags.ofMatches m).allow_run =
      (m.names.contains "allow-run" || m.names.contains "allow-all") := by
  simp [DenoFlags.ofMatches, ParseResult.isPresent, DenoFlags.default,
    apply_ite DenoFlags.allow_run, Bool.or_comm]

lemma ofMatches_allow_high_precision (m : ParseResult) :
    (DenoFlags.ofMatches m).allow_high_precision =
      (m.names.contains "allow-high-precision" || m.names.contains "allow-all") := by
  simp [DenoFlags.ofMatches, ParseResult.isPresent, DenoFlags.default,
    apply_ite DenoFlags.allow_high_precision, Bool.or_comm]

lemma ofMatches_info (m : ParseResult) :
    (DenoFlags.ofMatches m).info = m.sel.isInfo := by
  simp [DenoFlags.ofMatches, ParseResult.isPresent, DenoFlags.default,
    apply_ite DenoFlags.info, Bool.or_comm]

lemma ofMatches_fmt (m : ParseResult) :
    (DenoFlags.ofMatches m).fmt = m.sel.isFmt := by
  simp [DenoFlags.ofMatches, ParseResult.isPresent, DenoFlags.default,
    apply_ite DenoFlags.fmt, Bool.or_comm]

lemma ofMatches_eval (m : ParseResult) :
    (DenoFlags.ofMatches m).eval = m.sel.isEval := by
  simp [DenoFlags.ofMatches, ParseResult.isPresent, DenoFlags.default,
    apply_ite DenoFlags.eval, Bool.or_comm]

/-! Relational machinery: which membership facts about the recorded flag names
determine the resulting `DenoFlags`, and how the classification loop transports
them. -/

lemma contains_append (l₁ l₂ : List String) (a : String) :
    (l₁ ++ l₂).contains a = (l₁.contains a || l₂.contains a) := by simp

lemma perm_contains {l₁ l₂ : List String} (h : l₁.Perm l₂) (a : String) :
    l₁.contains a = l₂.contains a := by simp [h.mem_iff]

lemma flagsEqv_refl (ns : List String) : FlagsEqv ns ns :=
  ⟨rfl, rfl, rfl, rfl, rfl, rfl, rfl, rfl, rfl, rfl, rfl, rfl⟩

lemma FlagsEqv.symm {ns₁ ns₂ : List String} (h : FlagsEqv ns₁ ns₂) : FlagsEqv ns₂ ns₁ :=
  ⟨h.version.symm, h.log_debug.symm, h.reload.symm, h.no_prompt.symm, h.types.symm,
   h.prefetch.symm, h.allow_read.symm, h.allow_write.symm, h.allow_net.symm,
   h.allow_env.symm, h.allow_run.symm, h.allow_hp.symm⟩

lemma FlagsEqv.trans {ns₁ ns₂ ns₃ : List String} (h : FlagsEqv ns₁ ns₂)
    (g : FlagsEqv ns₂ ns₃) : FlagsEqv ns₁ ns₃ :=
  ⟨h.version.trans g.version, h.log_debug.trans g.log_debug, h.reload.trans g.reload,
   h.no_prompt.trans g.no_prompt, h.types.trans g.types, h.prefetch.trans g.prefetch,
   h.allow_read.trans g.allow_read, h.allow_write.trans g.allow_write,
   h.allow_net.trans g.allow_net, h.allow_env.trans g.allow_env,
   h.allow_run.trans g.allow_run, h.allow_hp.trans g.allow_hp⟩

lemma or_congr_aux (a₁ b₁ a₂ b₂ p q : Bool) (h : (a₁ || b₁) = (a₂ || b₂)) :
    ((a₁ || p) || (b₁ || q)) = ((a₂ || p) || (b₂ || q)) := by
  cases a₁ <;> cases b₁ <;> cases a₂ <;> cases b₂ <;> cases p <;> cases q <;> simp_all

/-- `FlagsEqv` is preserved by recording the same further names on both sides. -/
lemma flagsEqv_append {ns₁ ns₂ : List String} (h : FlagsEqv ns₁ ns₂) (l : List String) :
    FlagsEqv (ns₁ ++ l) (ns₂ ++ l) := by
  refine ⟨?_, ?_, ?_, ?_, ?_, ?_, ?_, ?_, ?_, ?_, ?_, ?_⟩ <;> simp only [contains_append]
  · rw [h.version]
  · rw [h.log_debug]
  · rw [h.reload]
  · rw [h.no_prompt]
  · rw [h.types]
  · rw [h.prefetch]
  · exact or_congr_aux _ _ _ _ _ _ h.allow_read
  · exact or_congr_aux _ _ _ _ _ _ h.allow_write
  · exact or_congr_aux _ _ _ _ _ _ h.allow_net
  · exact or_congr_aux _ _ _ _ _ _ h.allow_env
  · exact or_congr_aux _ _ _ _ _ _ h.allow_run
  · exact or_congr_aux _ _ _ _ _ _ h.allow_hp

lemma flagsEqv_of_perm {ns₁ ns₂ : List String} (h : ns₁.Perm ns₂) : FlagsEqv ns₁ ns₂ := by
  refine ⟨?_, ?_, ?_, ?_, ?_, ?_, ?_, ?_, ?_, ?_, ?_, ?_⟩ <;>
    simp only [perm_contains h]

/-- Two parse results related by `FlagsEqv` and agreeing on the mode selectors
are mapped to the same `DenoFlags` (the v8 component is never read). -/
lemma ofMatches_congr {m₁ m₂ : ParseResult} (hn : FlagsEqv m₁.names m₂.names)
    (hi : m₁.sel.isInfo = m₂.sel.isInfo) (he : m₁.sel.isEval = m₂.sel.isEval)
    (hf : m₁.sel.isFmt = m₂.sel.isFmt) :
    DenoFlags.ofMatches m₁ = DenoFlags.ofMatches m₂ := by
  ext
  · rw [ofMatches_log_debug, ofMatches_log_debug, hn.log_debug]
  · rw [ofMatches_version, ofMatches_version, hn.version]
  · rw [ofMatches_reload, ofMatches_reload, hn.reload]
  · rw [ofMatches_allow_read, ofMatches_allow_read, hn.allow_read]
  · rw [ofMatches_allow_write, ofMatches_allow_write, hn.allow_write]
  · rw [ofMatches_allow_net, ofMatches_allow_net, hn.allow_net]
  · rw [ofMatches_allow_env, ofMatches_allow_env, hn.allow_env]
  · rw [ofMatches_allow_run, ofMatches_allow_run, hn.allow_run]
  · rw [ofMatches_allow_high_precision, ofMatches_allow_high_precision, hn.allow_hp]
  · rw [ofMatches_no_prompts, ofMatches_no_prompts, hn.no_prompt]
  · rw [ofMatches_types, ofMatches_types, hn.types]
  · rw [ofMatches_prefetch, ofMatches_prefetch, hn.prefetch]
  · rw [ofMatches_info, ofMatches_info, hi]
  · rw [ofMatches_fmt, ofMatches_fmt, hf]
  · rw [ofMatches_eval, ofMatches_eval, he]

/-- Scanning a sequence of flag-region tokens only accumulates state: the loop
then continues on the remaining tokens with the recorded names appended and the
`v8-flags` value updated. -/
lemma parseLoop_append : ∀ (fs rest ns : List String) (v : Option (List String)),
    fs.all isPureTok = true →
    parseLoop (fs ++ rest) ns v = parseLoop rest (ns ++ namesOf fs) (vAcc fs v) := by
  intro fs
  induction fs with
  | nil => intro rest ns v _; simp [namesOf, vAcc]
  | cons t fs ih =>
    intro rest ns v hall
    rw [List.all_cons, Bool.and_eq_true] at hall
    obtain ⟨ht, hfs⟩ := hall
    cases hc : classify t with
    | boolLong n =>
      rw [List.cons_append]
      simp only [parseLoop, hc]
      rw [ih rest (ns ++ [n]) v hfs]
      simp [namesOf, tokNames, hc, vAcc, vAccTok, List.append_assoc]
    | shortCombo l =>
      rw [List.cons_append]
      simp only [parseLoop, hc]
      rw [ih rest (ns ++ l) v hfs]
      simp [namesOf, tokNames, hc, vAcc, vAccTok, List.append_assoc]
    | v8flagsEq s =>
      rw [List.cons_append]
      simp only [parseLoop, hc]
      rw [ih rest ns (some (splitOnComma s)) hfs]
      simp [namesOf, tokNames, hc, vAcc, vAccTok]
    | v8flagsBare => simp [isPureTok, hc] at ht
    | subcommand k => simp [isPureTok, hc] at ht
    | badFlag tok => simp [isPureTok, hc] at ht
    | scriptTok => simp [isPureTok, hc] at ht

/-- Two runs of the classification loop on the same tokens, from states related
by `FlagsEqv` (and arbitrary captured `v8-flags` values), either fail with the
same error or succeed with `FlagsEqv`-related names, the same selection, and
equal captured values whenever the starting values were equal. -/
lemma parseLoop_pair : ∀ (ts ns₁ ns₂ : List String) (v₁ v₂ : Option (List String)),
    FlagsEqv ns₁ ns₂ →
    (∃ e, parseLoop ts ns₁ v₁ = .error e ∧ parseLoop ts ns₂ v₂ = .error e) ∨
    (∃ r₁ r₂, parseLoop ts ns₁ v₁ = .ok r₁ ∧ parseLoop ts ns₂ v₂ = .ok r₂ ∧
      FlagsEqv r₁.names r₂.names ∧ r₁.sel = r₂.sel ∧ (v₁ = v₂ → r₁.v8 = r₂.v8)) := by
  intro ts
  induction ts with
  | nil =>
    intro ns₁ ns₂ v₁ v₂ h
    right
    exact ⟨⟨ns₁, v₁, .noSub⟩, ⟨ns₂, v₂, .noSub⟩, rfl, rfl, h, rfl, fun hv => hv⟩
  | cons t ts ih =>
    intro ns₁ ns₂ v₁ v₂ h
    cases hc : classify t with
    | boolLong n =>
      simp only [parseLoop, hc]
      exact ih _ _ _ _ (flagsEqv_append h [n])
    | shortCombo l =>
      simp only [parseLoop, hc]
      exact ih _ _ _ _ (flagsEqv_append h l)
    | v8flagsEq s =>
      simp only [parseLoop, hc]
      rcases ih (ns₁) (ns₂) (some (splitOnComma s)) (some (splitOnComma s)) h with
        ⟨e, h₁, h₂⟩ | ⟨r₁, r₂, h₁, h₂, hn, hs, hv⟩
      · exact Or.inl ⟨e, h₁, h₂⟩
      · exact Or.inr ⟨r₁, r₂, h₁, h₂, hn, hs, fun _ => hv rfl⟩
    | v8flagsBare =>
      left
      exact ⟨.malformedArguments v8MissingValueMsg, by simp [parseLoop, hc], by simp [parseLoop, hc]⟩
    | badFlag tok =>
      left
      exact ⟨.unrecognizedToken (unexpectedMsg tok), by simp [parseLoop, hc], by simp [parseLoop, hc]⟩
    | subcommand k =>
      cases k with
      | info =>
        simp only [parseLoop, hc]
        cases hp : parseOneArg infoMissingMsg Selection.info ts with
        | error e => left; exact ⟨e, by simp [hp, Except.map], by simp [hp, Except.map]⟩
        | ok s =>
          right
          exact ⟨⟨ns₁, v₁, s⟩, ⟨ns₂, v₂, s⟩, by simp [hp, Except.map], by simp [hp, Except.map],
            h, rfl, fun hv => hv⟩
      | eval =>
        simp only [parseLoop, hc]
        cases hp : parseOneArg evalMissingMsg Selection.eval ts with
        | error e => left; exact ⟨e, by simp [hp, Except.map], by simp [hp, Except.map]⟩
        | ok s =>
          right
          exact ⟨⟨ns₁, v₁, s⟩, ⟨ns₂, v₂, s⟩, by simp [hp, Except.map], by simp [hp, Except.map],
            h, rfl, fun hv => hv⟩
      | fmt =>
        simp only [parseLoop, hc]
        cases hp : parseFmtArgs ts with
        | error e => left; exact ⟨e, by simp [hp, Except.map], by simp [hp, Except.map]⟩
        | ok s =>
          right
          exact ⟨⟨ns₁, v₁, s⟩, ⟨ns₂, v₂, s⟩, by simp [hp, Except.map], by simp [hp, Except.map],
            h, rfl, fun hv => hv⟩
    | scriptTok =>
      right
      exact ⟨⟨ns₁, v₁, .script t ts⟩, ⟨ns₂, v₂, .script t ts⟩, by simp [parseLoop, hc],
        by simp [parseLoop, hc], h, rfl, fun hv => hv⟩

/-- C1: on a malformed argument vector (here a `v8-flags` token without its
required value) the parsing library prints the usage message and terminates the
process; `set_flags` does not return an error value to the caller — its only
`return` is the final `Ok`, so the promised `Err` path is dead. -/
theorem parse_failure_terminates_process :
    set_flags ["deno", "--v8-flags"] =
      .exit (renderErr (.malformedArguments v8MissingValueMsg)) := by decide

/-- C4: the forwarded engine-flag list places the program-name placeholder at
index 1, not first: `v8_flags.insert(1, "deno")` at src/cli/flags.rs line 256
turns the comma-split value `--expose-gc,--gc-stats` into
`[--expose-gc, deno, --gc-stats]`, which differs from the placeholder-first list
the specification prescribes. -/
theorem v8flags_forward_placeholder_second :
    set_flags ["deno", "--v8-flags=--expose-gc,--gc-stats", "script.ts"] =
      .ok DenoFlags.default ["deno", "script.ts"]
        [["--expose-gc", "deno", "--gc-stats"]] ∧
    ["--expose-gc", "deno", "--gc-stats"] ≠ ["deno", "--expose-gc", "--gc-stats"] := by decide

/-- C5 counterexample: the value of `v8-flags` is not taken from the following
token — the flag is declared `require_equals(true)` (src/cli/flags.rs line 162),
so `--v8-flags x` is a parse failure rather than a successful parse capturing
`x`. -/
theorem v8flags_separate_value_rejected :
    parseArgs ["--v8-flags", "x"] = .error (.malformedArguments v8MissingValueMsg) := by decide

/-- C5 amended: the value of `v8-flags` must be attached in the same token after
an equals sign; an attached value is captured comma-split (and forwarded), and a
`v8-flags` token without an attached value fails with a usage-describing
message. -/
theorem v8flags_requires_attached_value (t s : String) (h : classify t = .v8flagsEq s) :
    parseArgs [t] = .ok ⟨[], some (splitOnComma s), .noSub⟩ ∧
    (∃ f, set_flags ["deno", t] = .ok f ["deno"] [insertAt1 "deno" (splitOnComma s)]) ∧
    parseArgs ["--v8-flags"] = .error (.malformedArguments v8MissingValueMsg) := by
  refine ⟨?_, ?_, by decide⟩
  · simp [parseArgs, parseLoop, h]
  · refine ⟨DenoFlags.ofMatches ⟨[], some (splitOnComma s), .noSub⟩, ?_⟩
    simp [set_flags, parseArgs, parseLoop, h, ParseResult.isPresent]

theorem v8flags_requires_attached_value_w :
    parseArgs ["--v8-flags=a,b"] = .ok ⟨[], some (splitOnComma "a,b"), .noSub⟩ ∧
    (∃ f, set_flags ["deno", "--v8-flags=a,b"] =
      .ok f ["deno"] [insertAt1 "deno" (splitOnComma "a,b")]) ∧
    parseArgs ["--v8-flags"] = .error (.malformedArguments v8MissingValueMsg) :=
  v8flags_requires_attached_value "--v8-flags=a,b" "a,b" (by decide)

/-- C7 counterexample: `allow-all` is a declared boolean flag, yet parsing an
argument vector containing only its long form sets six fields of the returned
structure, not exactly one (there is no `allow_all` field at all). -/
theorem allow_all_not_exactly_one_field :
    set_flags ["deno", "--allow-all"] =
      .ok { allow_read := true, allow_write := true, allow_net := true, allow_env := true,
            allow_run := true, allow_high_precision := true } ["deno"] [] ∧
    countTrueFields
      { allow_read := true, allow_write := true, allow_net := true, allow_env := true,
        allow_run := true, allow_high_precision := true } = 6 := by decide

/-- C7 amended: parsing an argument vector containing only the long form of one
declared boolean flag succeeds with residual argv `[deno]` and sets exactly the
fields associated with that flag: each of the twelve one-to-one flags sets
exactly its own field, `allow-all` sets exactly the six permission fields, and
`v8-options` sets no field (its effect is only the forwarded call). -/
theorem single_long_flag_characterization :
    set_flags ["deno", "--version"] = .ok { version := true } ["deno"] [] ∧
    set_flags ["deno", "--allow-read"] = .ok { allow_read := true } ["deno"] [] ∧
    set_flags ["deno", "--allow-write"] = .ok { allow_write := true } ["deno"] [] ∧
    set_flags ["deno", "--allow-net"] = .ok { allow_net := true } ["deno"] [] ∧
    set_flags ["deno", "--allow-env"] = .ok { allow_env := true } ["deno"] [] ∧
    set_flags ["deno", "--allow-run"] = .ok { allow_run := true } ["deno"] [] ∧
    set_flags ["deno", "--allow-high-precision"] =
      .ok { allow_high_precision := true } ["deno"] [] ∧
    set_flags ["deno", "--no-prompt"] = .ok { no_prompts := true } ["deno"] [] ∧
    set_flags ["deno", "--log-debug"] = .ok { log_debug := true } ["deno"] [] ∧
    set_flags ["deno", "--reload"] = .ok { reload := true } ["deno"] [] ∧
    set_flags ["deno", "--types"] = .ok { types := true } ["deno"] [] ∧
    set_flags ["deno", "--prefetch"] = .ok { prefetch := true } ["deno"] [] ∧
    set_flags ["deno", "--allow-all"] =
      .ok { allow_read := true, allow_write := true, allow_net := true, allow_env := true,
            allow_run := true, allow_high_precision := true } ["deno"] [] ∧
    set_flags ["deno", "--v8-options"] =
      .ok DenoFlags.default ["deno"] [["deno", "--v8-options"]] := by decide

/-- C6: positional arity of the subcommands is enforced exactly — `fmt` with
zero files, `eval` with no code string and `info` with no file path each fail
with the missing-positional (MalformedArguments) error; `eval` and `info` with
exactly one non-flag positional succeed, and a second positional is a parse
failure. -/
theorem subcommand_arity_enforced :
    parseArgs ["fmt"] = .error (.malformedArguments fmtMissingMsg) ∧
    parseArgs ["eval"] = .error (.malformedArguments evalMissingMsg) ∧
    parseArgs ["info"] = .error (.malformedArguments infoMissingMsg) ∧
    (∀ x, flagLike x = false →
      parseArgs ["eval", x] = .ok ⟨[], none, .eval x⟩ ∧
      parseArgs ["info", x] = .ok ⟨[], none, .info x⟩) ∧
    (∀ x y rest, ∃ e, parseArgs ("eval" :: x :: y :: rest) = .error e) ∧
    (∀ x y rest, ∃ e, parseArgs ("info" :: x :: y :: rest) = .error e) := by
  have hce : classify "eval" = .subcommand .eval := by decide
  have hci : classify "info" = .subcommand .info := by decide
  refine ⟨by decide, by decide, by decide, ?_, ?_, ?_⟩
  · intro x hx
    constructor
    · simp [parseArgs, parseLoop, hce, parseOneArg, hx, Except.map]
    · simp [parseArgs, parseLoop, hci, parseOneArg, hx, Except.map]
  · intro x y rest
    simp only [parseArgs, parseLoop, hce, parseOneArg]
    cases hf : flagLike x <;> simp [hf, Except.map]
  · intro x y rest
    simp only [parseArgs, parseLoop, hci, parseOneArg]
    cases hf : flagLike x <;> simp [hf, Except.map]

theorem subcommand_arity_enforced_w :
    parseArgs ["eval", "console.log(1)"] = .ok ⟨[], none, .eval "console.log(1)"⟩ ∧
    parseArgs ["info", "deps.ts"] = .ok ⟨[], none, .info "deps.ts"⟩ ∧
    (∃ e, parseArgs ["eval", "a", "b"] = .error e) :=
  ⟨(subcommand_arity_enforced.2.2.2.1 "console.log(1)" (by decide)).1,
   (subcommand_arity_enforced.2.2.2.1 "deps.ts" (by decide)).2,
   subcommand_arity_enforced.2.2.2.2.1 "a" "b" []⟩

/-- C2: in default script-run mode, every token after the script path is
reproduced verbatim, in order, in the residual argv — which is exactly
`[program, script, trailing...]` — and the trailing tokens are never matched
against the flag catalog: the flags and forwarded calls are the same as if the
trailing tokens were absent. -/
theorem script_run_passthrough (fs : List String) (s : String) (ts : List String)
    (hfs : fs.all isPureTok = true) (hs : classify s = .scriptTok) :
    ∃ f c, set_flags ("deno" :: (fs ++ s :: ts)) = .ok f ("deno" :: s :: ts) c ∧
           set_flags ("deno" :: (fs ++ [s])) = .ok f ["deno", s] c := by
  have h₁ : parseArgs (fs ++ s :: ts) = .ok ⟨namesOf fs, vAcc fs none, .script s ts⟩ := by
    unfold parseArgs
    rw [parseLoop_append fs (s :: ts) [] none hfs]
    simp [parseLoop, hs]
  have h₂ : parseArgs (fs ++ [s]) = .ok ⟨namesOf fs, vAcc fs none, .script s []⟩ := by
    unfold parseArgs
    rw [parseLoop_append fs [s] [] none hfs]
    simp [parseLoop, hs]
  have hf : DenoFlags.ofMatches ⟨namesOf fs, vAcc fs none, .script s ts⟩ =
      DenoFlags.ofMatches ⟨namesOf fs, vAcc fs none, .script s []⟩ :=
    ofMatches_congr (flagsEqv_refl _) rfl rfl rfl
  refine ⟨DenoFlags.ofMatches ⟨namesOf fs, vAcc fs none, .script s ts⟩,
    (if (namesOf fs).contains "v8-options" then [["deno", "--v8-options"]] else []) ++
      (match vAcc fs none with
       | some vs => [insertAt1 "deno" vs]
       | none => []), ?_, ?_⟩
  · simp [set_flags, h₁, ParseResult.isPresent]
  · rw [hf]
    simp [set_flags, h₂, ParseResult.isPresent]

theorem script_run_passthrough_w :
    ∃ f c, set_flags ["deno", "--allow-net", "gist.ts", "--title", "X"] =
             .ok f ["deno", "gist.ts", "--title", "X"] c ∧
           set_flags ["deno", "--allow-net", "gist.ts"] = .ok f ["deno", "gist.ts"] c :=
  script_run_passthrough ["--allow-net"] "gist.ts" ["--title", "X"] (by decide) (by decide)

/-- C3: `allow-all` is equivalent (for the resulting `DenoFlags`) to the six
individual permission flags all being present, and permuting the flag tokens
preceding any script or subcommand token never changes the resulting
`DenoFlags`. -/
theorem allow_all_union_and_order_independent :
    (∀ fs rest, fs.all isPureTok = true →
      outFlags (set_flags ("deno" :: ("--allow-all" :: (fs ++ rest)))) =
      outFlags (set_flags ("deno" :: ("--allow-read" :: "--allow-write" :: "--allow-net" ::
        "--allow-env" :: "--allow-run" :: "--allow-high-precision" :: (fs ++ rest))))) ∧
    (∀ fs₁ fs₂ rest, fs₁.all isPureTok = true → fs₁.Perm fs₂ →
      outFlags (set_flags ("deno" :: (fs₁ ++ rest))) =
      outFlags (set_flags ("deno" :: (fs₂ ++ rest)))) := by
  constructor
  · intro fs rest hfs
    have hl : ("--allow-all" :: fs).all isPureTok = true := by
      rw [List.all_cons, Bool.and_eq_true]; exact ⟨by decide, hfs⟩
    have hr : ("--allow-read" :: "--allow-write" :: "--allow-net" :: "--allow-env" ::
        "--allow-run" :: "--allow-high-precision" :: fs).all isPureTok = true := by
      simp only [List.all_cons, Bool.and_eq_true]
      exact ⟨by decide, by decide, by decide, by decide, by decide, by decide, hfs⟩
    have e₁ : parseArgs ("--allow-all" :: (fs ++ rest)) =
        parseLoop rest ([] ++ namesOf ("--allow-all" :: fs)) (vAcc ("--allow-all" :: fs) none) := by
      unfold parseArgs
      exact parseLoop_append ("--allow-all" :: fs) rest [] none hl
    have e₂ : parseArgs ("--allow-read" :: "--allow-write" :: "--allow-net" :: "--allow-env" ::
        "--allow-run" :: "--allow-high-precision" :: (fs ++ rest)) =
        parseLoop rest
          ([] ++ namesOf ("--allow-read" :: "--allow-write" :: "--allow-net" :: "--allow-env" ::
            "--allow-run" :: "--allow-high-precision" :: fs))
          (vAcc ("--allow-read" :: "--allow-write" :: "--allow-net" :: "--allow-env" ::
            "--allow-run" :: "--allow-high-precision" :: fs) none) := by
      unfold parseArgs
      exact parseLoop_append _ rest [] none hr
    have hca : classify "--allow-all" = .boolLong "allow-all" := by decide
    have hcr : classify "--allow-read" = .boolLong "allow-read" := by decide
    have hcw : classify "--allow-write" = .boolLong "allow-write" := by decide
    have hcn : classify "--allow-net" = .boolLong "allow-net" := by decide
    have hcv : classify "--allow-env" = .boolLong "allow-env" := by decide
    have hcu : classify "--allow-run" = .boolLong "allow-run" := by decide
    have hch : classify "--allow-high-precision" = .boolLong "allow-high-precision" := by decide
    have hns₁ : namesOf ("--allow-all" :: fs) = ["allow-all"] ++ namesOf fs := by
      simp [namesOf, tokNames, hca]
    have hns₂ : namesOf ("--allow-read" :: "--allow-write" :: "--allow-net" :: "--allow-env" ::
        "--allow-run" :: "--allow-high-precision" :: fs) =
        ["allow-read", "allow-write", "allow-net", "allow-env", "allow-run",
         "allow-high-precision"] ++ namesOf fs := by
      simp [namesOf, tokNames, hcr, hcw, hcn, hcv, hcu, hch]
    have hv₁ : vAcc ("--allow-all" :: fs) none = vAcc fs none := by
      simp [vAcc, vAccTok, hca]
    have hv₂ : vAcc ("--allow-read" :: "--allow-write" :: "--allow-net" :: "--allow-env" ::
        "--allow-run" :: "--allow-high-precision" :: fs) none = vAcc fs none := by
      simp [vAcc, vAccTok, hcr, hcw, hcn, hcv, hcu, hch]
    have heqv : FlagsEqv (["allow-all"] ++ namesOf fs)
        (["allow-read", "allow-write", "allow-net", "allow-env", "allow-run",
          "allow-high-precision"] ++ namesOf fs) := by
      have base : FlagsEqv ["allow-all"]
          ["allow-read", "allow-write", "allow-net", "allow-env", "allow-run",
           "allow-high-precision"] := by
        refine ⟨?_, ?_, ?_, ?_, ?_, ?_, ?_, ?_, ?_, ?_, ?_, ?_⟩ <;> decide
      have step := flagsEqv_append base (namesOf fs)
      exact step
    rcases parseLoop_pair rest (["allow-all"] ++ namesOf fs)
        (["allow-read", "allow-write", "allow-net", "allow-env", "allow-run",
          "allow-high-precision"] ++ namesOf fs) (vAcc fs none) (vAcc fs none) heqv with
      ⟨e, p₁, p₂⟩ | ⟨r₁, r₂, p₁, p₂, hn, hsel, _⟩
    · simp only [List.singleton_append, List.cons_append, List.nil_append] at p₁ p₂
      simp [set_flags, e₁, e₂, hns₁, hns₂, hv₁, hv₂, p₁, p₂, outFlags]
    · have hflags : DenoFlags.ofMatches r₁ = DenoFlags.ofMatches r₂ :=
        ofMatches_congr hn (by rw [hsel]) (by rw [hsel]) (by rw [hsel])
      simp only [List.singleton_append, List.cons_append, List.nil_append] at p₁ p₂
      simp [set_flags, e₁, e₂, hns₁, hns₂, hv₁, hv₂, p₁, p₂, outFlags, hflags]
  · intro fs₁ fs₂ rest h₁ hperm
    have h₂ : fs₂.all isPureTok = true := by
      rw [List.all_eq_true] at h₁ ⊢
      intro t ht
      exact h₁ t (hperm.mem_iff.mpr ht)
    have e₁ : parseArgs (fs₁ ++ rest) =
        parseLoop rest ([] ++ namesOf fs₁) (vAcc fs₁ none) := by
      unfold parseArgs; exact parseLoop_append fs₁ rest [] none h₁
    have e₂ : parseArgs (fs₂ ++ rest) =
        parseLoop rest ([] ++ namesOf fs₂) (vAcc fs₂ none) := by
      unfold parseArgs; exact parseLoop_append fs₂ rest [] none h₂
    have hpn : (namesOf fs₁).Perm (namesOf fs₂) := hperm.flatMap_right tokNames
    have heqv : FlagsEqv ([] ++ namesOf fs₁) ([] ++ namesOf fs₂) := by
      simp only [List.nil_append]
      exact flagsEqv_of_perm hpn
    rcases parseLoop_pair rest ([] ++ namesOf fs₁) ([] ++ namesOf fs₂)
        (vAcc fs₁ none) (vAcc fs₂ none) heqv with
      ⟨e, p₁, p₂⟩ | ⟨r₁, r₂, p₁, p₂, hn, hsel, _⟩
    · simp only [List.nil_append] at p₁ p₂
      simp [set_flags, e₁, e₂, p₁, p₂, outFlags]
    · have hflags : DenoFlags.ofMatches r₁ = DenoFlags.ofMatches r₂ :=
        ofMatches_congr hn (by rw [hsel]) (by rw [hsel]) (by rw [hsel])
      simp only [List.nil_append] at p₁ p₂
      simp [set_flags, e₁, e₂, p₁, p₂, outFlags, hflags]

theorem allow_all_union_and_order_independent_w :
    outFlags (set_flags ["deno", "--allow-all", "gist.ts"]) =
      outFlags (set_flags ["deno", "--allow-read", "--allow-write", "--allow-net",
        "--allow-env", "--allow-run", "--allow-high-precision", "gist.ts"]) ∧
    outFlags (set_flags ["deno", "-r", "-D", "script.ts"]) =
      outFlags (set_flags ["deno", "-D", "-r", "script.ts"]) :=
  ⟨allow_all_union_and_order_independent.1 [] ["gist.ts"] (by decide),
   allow_all_union_and_order_independent.2 ["-r", "-D"] ["-D", "-r"] ["script.ts"]
     (by decide) (List.Perm.swap _ _ _)⟩

/-- C9: at most one invocation mode is ever selected — in every returned
`DenoFlags` at most one of the three mode fields `info`, `fmt`, `eval` is true. -/
theorem mode_flags_mutually_exclusive (args : List String) (f : DenoFlags)
    (r : List String) (c : List (List String)) (h : set_flags args = .ok f r c) :
    (f.info && f.fmt) = false ∧ (f.info && f.eval) = false ∧ (f.fmt && f.eval) = false := by
  unfold set_flags at h
  cases hp : parseArgs (args.drop 1) with
  | error e => rw [hp] at h; simp at h
  | ok m =>
    rw [hp] at h
    simp only [ProcOutcome.ok.injEq] at h
    obtain ⟨hf, -, -⟩ := h
    subst hf
    rw [ofMatches_info, ofMatches_fmt, ofMatches_eval]
    cases m.sel <;> simp [Selection.isInfo, Selection.isFmt, Selection.isEval]

theorem mode_flags_mutually_exclusive_w :
    ((({ info := true } : DenoFlags).info && ({ info := true } : DenoFlags).fmt) = false) ∧
    ((({ info := true } : DenoFlags).info && ({ info := true } : DenoFlags).eval) = false) ∧
    ((({ info := true } : DenoFlags).fmt && ({ info := true } : DenoFlags).eval) = false) :=
  mode_flags_mutually_exclusive ["deno", "info", "x.ts"] { info := true } ["deno", "x.ts"] []
    (by decide)

lemma shortName_long (c : Char) (n : String) (h : shortFlagName c = some n) :
    classify (longTokOf n) = .boolLong n := by
  unfold shortFlagName at h
  split_ifs at h
  all_goals (injection h with h; subst h; decide)

lemma mapM_short_names : ∀ (l : List Char) (ns : List String),
    l.mapM shortFlagName = some ns → ∀ n ∈ ns, classify (longTokOf n) = .boolLong n := by
  intro l
  induction l with
  | nil =>
    intro ns h n hn
    simp only [List.mapM_nil, pure, Option.some.injEq] at h
    subst h
    simp at hn
  | cons c cs ih =>
    intro ns h n hn
    rw [List.mapM_cons] at h
    cases hc : shortFlagName c with
    | none => rw [hc] at h; simp at h
    | some b =>
      rw [hc] at h
      cases hcs : cs.mapM shortFlagName with
      | none => rw [hcs] at h; simp at h
      | some bs =>
        rw [hcs] at h
        obtain rfl : b :: bs = ns := by simpa using h
        rcases List.mem_cons.mp hn with rfl | hn'
        · exact shortName_long c n hc
        · exact ih bs hcs n hn'

lemma longToks_props : ∀ (ns : List String),
    (∀ n ∈ ns, classify (longTokOf n) = .boolLong n) →
    ((ns.map longTokOf).all isPureTok = true ∧ namesOf (ns.map longTokOf) = ns ∧
     ∀ v, vAcc (ns.map longTokOf) v = v) := by
  intro ns
  induction ns with
  | nil => intro _; exact ⟨rfl, rfl, fun v => rfl⟩
  | cons n ns ih =>
    intro h
    have hn := h n (List.mem_cons_self n ns)
    obtain ⟨h1, h2, h3⟩ := ih (fun x hx => h x (List.mem_cons_of_mem n hx))
    refine ⟨?_, ?_, ?_⟩
    · simp [List.all_cons, isPureTok, hn, h1]
    · simp [namesOf, tokNames, hn] at h2 ⊢
      exact h2
    · intro v
      simp only [List.map_cons, vAcc, List.foldl_cons]
      have : vAccTok (longTokOf n) v = v := by simp [vAccTok, hn]
      rw [this]
      exact h3 v

lemma classify_short_token (c : Char) (cs : List Char) (l : List String)
    (h : (c :: cs).mapM shortFlagName = some l) :
    classify (String.mk ('-' :: c :: cs)) = .shortCombo l := by
  have hc : c ≠ '-' := by
    intro hcc
    subst hcc
    rw [List.mapM_cons] at h
    have : shortFlagName '-' = none := by decide
    rw [this] at h
    simp at h
  show (match ('-' :: c :: cs : List Char) with
    | '-' :: '-' :: body =>
      if List.isPrefixOf ("v8-flags=".data) body then TokenClass.v8flagsEq (String.mk (body.drop 9))
      else if String.mk body = "v8-flags" then TokenClass.v8flagsBare
      else if boolLongFlags.contains (String.mk body) then TokenClass.boolLong (String.mk body)
      else TokenClass.badFlag (String.mk ('-' :: c :: cs))
    | '-' :: c1 :: cs1 =>
      match List.mapM shortFlagName (c1 :: cs1) with
      | some ns => TokenClass.shortCombo ns
      | none => TokenClass.badFlag (String.mk ('-' :: c :: cs))
    | _ =>
      if String.mk ('-' :: c :: cs) = "info" then TokenClass.subcommand .info
      else if String.mk ('-' :: c :: cs) = "eval" then TokenClass.subcommand .eval
      else if String.mk ('-' :: c :: cs) = "fmt" then TokenClass.subcommand .fmt
      else TokenClass.scriptTok) = TokenClass.shortCombo l
  split
  · rename_i body heq
    injection heq with h1 h2
    injection h2 with h2 h3
    exact absurd h2 hc
  · rename_i c1 cs1 heq
    injection heq with h1 h2
    injection h2 with h2 h3
    subst h2; subst h3
    rw [h]
  · rename_i hne
    exact (hne c cs rfl).elim

/-- C8: a combined short-flag token is equivalent to its expansion into the
corresponding separate long-form flags, in any order of those long forms: the
returned `DenoFlags` and residual argv coincide. -/
theorem short_combo_equiv_long_forms (c : Char) (cs : List Char) (l l₂ fs rest : List String)
    (h : (c :: cs).mapM shortFlagName = some l) (hperm : l.Perm l₂)
    (hfs : fs.all isPureTok = true) :
    outFR (set_flags ("deno" :: (fs ++ String.mk ('-' :: c :: cs) :: rest))) =
    outFR (set_flags ("deno" :: (fs ++ (l₂.map longTokOf ++ rest)))) := by
  have hcl := classify_short_token c cs l h
  have hmem := mapM_short_names (c :: cs) l h
  have hmem₂ : ∀ n ∈ l₂, classify (longTokOf n) = .boolLong n :=
    fun n hn => hmem n (hperm.mem_iff.mpr hn)
  obtain ⟨hpure₂, hnames₂, hvacc₂⟩ := longToks_props l₂ hmem₂
  have e₁ : parseArgs (fs ++ String.mk ('-' :: c :: cs) :: rest) =
      parseLoop rest ((namesOf fs) ++ l) (vAcc fs none) := by
    unfold parseArgs
    rw [parseLoop_append fs _ [] none hfs]
    simp [parseLoop, hcl]
  have e₂ : parseArgs (fs ++ (l₂.map longTokOf ++ rest)) =
      parseLoop rest ((namesOf fs) ++ l₂) (vAcc fs none) := by
    unfold parseArgs
    rw [parseLoop_append fs _ [] none hfs,
      parseLoop_append (l₂.map longTokOf) rest _ _ hpure₂, hnames₂, hvacc₂]
    simp [List.append_assoc]
  have heqv : FlagsEqv ((namesOf fs) ++ l) ((namesOf fs) ++ l₂) :=
    flagsEqv_of_perm ((List.Perm.refl (namesOf fs)).append hperm)
  rcases parseLoop_pair rest _ _ (vAcc fs none) (vAcc fs none) heqv with
    ⟨e, p₁, p₂⟩ | ⟨r₁, r₂, p₁, p₂, hn, hsel, _⟩
  · simp [set_flags, e₁, e₂, p₁, p₂, outFR]
  · have hflags : DenoFlags.ofMatches r₁ = DenoFlags.ofMatches r₂ :=
      ofMatches_congr hn (by rw [hsel]) (by rw [hsel]) (by rw [hsel])
    simp [set_flags, e₁, e₂, p₁, p₂, outFR, hflags, hsel]

theorem short_combo_equiv_long_forms_w :
    outFR (set_flags ["deno", "-Dr", "--allow-write", "script.ts"]) =
    outFR (set_flags ["deno", "--reload", "--log-debug", "--allow-write", "script.ts"]) :=
  short_combo_equiv_long_forms 'D' ['r'] ["log-debug", "reload"] ["reload", "log-debug"]
    [] ["--allow-write", "script.ts"] (by decide) (List.Perm.swap _ _ _) (by decide)

lemma eraseV8_all_pure {fs : List String} (h : fs.all isPureTok = true) :
    (eraseV8 fs).all isPureTok = true := by
  rw [List.all_eq_true] at h ⊢
  intro t ht
  exact h t (List.mem_of_mem_filter ht)

/-- Erasing the engine-tuning flags does not change membership of any other
name among the recorded flag names. -/
lemma contains_namesOf_erase : ∀ (fs : List String), fs.all isPureTok = true →
    ∀ (k : String), (k == "v8-options") = false →
    (namesOf (eraseV8 fs)).contains k = (namesOf fs).contains k := by
  intro fs
  induction fs with
  | nil => intro _ k _; rfl
  | cons t fs ih =>
    intro hall k hk
    rw [List.all_cons, Bool.and_eq_true] at hall
    obtain ⟨ht, hfs⟩ := hall
    cases hc : classify t with
    | boolLong n =>
      cases hv8 : (n == "v8-options") with
      | false =>
        have hkeep : keepTok t = true := by simp [keepTok, hc, hv8]
        simp only [eraseV8, List.filter_cons, hkeep, if_true]
        simp only [namesOf, List.flatMap_cons, tokNames, hc]
        simp only [List.singleton_append, List.contains_cons]
        rw [show (fs.filter keepTok).flatMap tokNames = namesOf (eraseV8 fs) from rfl,
          show fs.flatMap tokNames = namesOf fs from rfl, ih hfs k hk]
      | true =>
        have hn : n = "v8-options" := by
          have := (beq_iff_eq (a := n) (b := "v8-options")).mp hv8
          exact this
        have hkeep : keepTok t = false := by simp [keepTok, hc, hv8]
        simp only [eraseV8, List.filter_cons, hkeep, if_false, Bool.false_eq_true]
        simp only [namesOf, List.flatMap_cons, tokNames, hc, hn]
        simp only [List.singleton_append, List.contains_cons, hk, Bool.false_or]
        exact ih hfs k hk
    | shortCombo l =>
      have hkeep : keepTok t = true := by simp [keepTok, hc]
      simp only [eraseV8, List.filter_cons, hkeep, if_true]
      simp only [namesOf, List.flatMap_cons, tokNames, hc]
      rw [show (fs.filter keepTok).flatMap tokNames = namesOf (eraseV8 fs) from rfl,
        show fs.flatMap tokNames = namesOf fs from rfl]
      rw [contains_append, contains_append, ih hfs k hk]
    | v8flagsEq s =>
      have hkeep : keepTok t = false := by simp [keepTok, hc]
      simp only [eraseV8, List.filter_cons, hkeep, if_false, Bool.false_eq_true]
      simp only [namesOf, List.flatMap_cons, tokNames, hc, List.nil_append]
      exact ih hfs k hk
    | v8flagsBare => simp [isPureTok, hc] at ht
    | subcommand kk => simp [isPureTok, hc] at ht
    | badFlag tok => simp [isPureTok, hc] at ht
    | scriptTok => simp [isPureTok, hc] at ht

/-- C10: the engine-tuning flags `--v8-options` and `--v8-flags=<...>` never
influence the returned pair — two successful invocations whose flag regions
agree after erasing those two flags return the same `DenoFlags` and the same
residual argv (their only effect is the recorded forwarding calls). -/
theorem engine_flags_noninterference (fs₁ fs₂ rest : List String)
    (f₁ f₂ : DenoFlags) (r₁ r₂ : List String) (c₁ c₂ : List (List String))
    (h₁ : fs₁.all isPureTok = true) (h₂ : fs₂.all isPureTok = true)
    (he : eraseV8 fs₁ = eraseV8 fs₂)
    (e₁ : set_flags ("deno" :: (fs₁ ++ rest)) = .ok f₁ r₁ c₁)
    (e₂ : set_flags ("deno" :: (fs₂ ++ rest)) = .ok f₂ r₂ c₂) :
    f₁ = f₂ ∧ r₁ = r₂ := by
  have key : ∀ k, (k == "v8-options") = false →
      (namesOf fs₁).contains k = (namesOf fs₂).contains k := by
    intro k hk
    rw [← contains_namesOf_erase fs₁ h₁ k hk, he, contains_namesOf_erase fs₂ h₂ k hk]
  have heqv : FlagsEqv (namesOf fs₁) (namesOf fs₂) := by
    refine ⟨?_, ?_, ?_, ?_, ?_, ?_, ?_, ?_, ?_, ?_, ?_, ?_⟩
    · exact key "version" (by decide)
    · exact key "log-debug" (by decide)
    · exact key "reload" (by decide)
    · exact key "no-prompt" (by decide)
    · exact key "types" (by decide)
    · exact key "prefetch" (by decide)
    · rw [key "allow-read" (by decide), key "allow-all" (by decide)]
    · rw [key "allow-write" (by decide), key "allow-all" (by decide)]
    · rw [key "allow-net" (by decide), key "allow-all" (by decide)]
    · rw [key "allow-env" (by decide), key "allow-all" (by decide)]
    · rw [key "allow-run" (by decide), key "allow-all" (by decide)]
    · rw [key "allow-high-precision" (by decide), key "allow-all" (by decide)]
  have q₁ : parseArgs (fs₁ ++ rest) = parseLoop rest (namesOf fs₁) (vAcc fs₁ none) := by
    unfold parseArgs
    rw [parseLoop_append fs₁ rest [] none h₁]
    simp
  have q₂ : parseArgs (fs₂ ++ rest) = parseLoop rest (namesOf fs₂) (vAcc fs₂ none) := by
    unfold parseArgs
    rw [parseLoop_append fs₂ rest [] none h₂]
    simp
  unfold set_flags at e₁ e₂
  simp only [List.drop_succ_cons, List.drop_zero] at e₁ e₂
  rw [q₁] at e₁
  rw [q₂] at e₂
  rcases parseLoop_pair rest (namesOf fs₁) (namesOf fs₂) (vAcc fs₁ none) (vAcc fs₂ none) heqv
    with ⟨e, p₁, p₂⟩ | ⟨m₁, m₂, p₁, p₂, hn, hsel, _⟩
  · rw [p₁] at e₁
    simp at e₁
  · rw [p₁] at e₁
    rw [p₂] at e₂
    simp only [ProcOutcome.ok.injEq] at e₁ e₂
    obtain ⟨hf₁, hr₁, -⟩ := e₁
    obtain ⟨hf₂, hr₂, -⟩ := e₂
    subst hf₁; subst hf₂; subst hr₁; subst hr₂
    constructor
    · exact ofMatches_congr hn (by rw [hsel]) (by rw [hsel]) (by rw [hsel])
    · rw [hsel]

theorem engine_flags_noninterference_w :
    ({ reload := true } : DenoFlags) = { reload := true } ∧
    (["deno", "script.ts"] : List String) = ["deno", "script.ts"] :=
  engine_flags_noninterference ["--reload", "--v8-options", "--v8-flags=--gc-stats"]
    ["--reload"] ["script.ts"] { reload := true } { reload := true }
    ["deno", "script.ts"] ["deno", "script.ts"]
    [["deno", "--v8-options"], ["--gc-stats", "deno"]] []
    (by decide) (by decide) (by decide) (by decide) (by decide)
